import Mathlib

/-!
Formal models of the core components of the catnip user-space network stack,
with theorems settling the specification's claims about them.

Each definition is a shallow embedding of the corresponding Rust item:

* `TtlCache` — `src/collections/hashttlcache/mod.rs` (`HashTtlCache`)
* `Arp` — `src/protocols/arp/cache/mod.rs` (`ArpCache`) and
  `src/protocols/arp/pdu/mod.rs` (`ArpPdu::parse`/`serialize`)
* `Udp` — `src/protocols/udp/peer.rs` (`UdpPeer::bind`/`push`, `send_datagram`)
* `Tcp` — `src/protocols/tcp/established/background/retransmitter.rs`
  (`retransmit`) and
  `src/protocols/tcp/established/state/congestion_ctrl/cubic.rs` (`Cubic`)
* `Sched` — `src/libos.rs` (`LibOS::wait_any`)

Conventions: `Instant`/`Duration` become `Nat` instants/intervals; `u32`
arithmetic wraps modulo `2^32` (release-mode Rust semantics; debug builds
would panic on the same overflows); `HashMap` becomes an association list
with in-place update; Rust functions that can `panic!`/`assert!` return
`Option`; `Result<T, Fail>` becomes `Except Fail T`.
-/

/-- Two to the thirty-second power, the modulus of `u32` arithmetic. -/
def U32MOD : Nat := 4294967296

/-- Wrapping `u32` normalisation (release-mode overflow semantics). -/
def wrap (n : Nat) : Nat := n % U32MOD

/-- Wrapping `u32` subtraction `a - b` for `a b < 2^32`
    (the semantics of `Wrapping<u32>` subtraction used for `SeqNumber`). -/
def wsub (a b : Nat) : Nat := (a + U32MOD - b) % U32MOD

/-- Error kinds.  Modelled from the spec: the `crate::fail::Fail` type itself is
    not under src/; §7 lists the kinds and the source names the variants and
    their `details` payloads at each use site. -/
inductive Fail where
  | Malformed (details : String)
  | Unsupported (details : String)
  | AddressInUse
  | BadFileDescriptor
  | TooManyOpenedFiles (details : String)
  | Ignored (details : String)
deriving Repr, DecidableEq

namespace TtlCache

/-- A cache record: value plus optional expiry instant
    (`Record<V>` in `hashttlcache/mod.rs`; `Expiry` is inlined as a `Nat`). -/
structure Record (V : Type) where
  value : V
  expiry : Option Nat
deriving Repr, DecidableEq

/-- `Expiry::has_expired`: `now >= self.0`. -/
def hasExpired (expiry now : Nat) : Bool := expiry ≤ now

/-- The TTL cache (`HashTtlCache<K, V>`): the hash map is an association
    list updated in place, the tombstone min-heap a plain list (its ordering
    is irrelevant to every operation modelled here). -/
structure HashTtlCache (K V : Type) where
  map : List (K × Record V)
  graveyard : List (K × Nat)
  default_ttl : Option Nat
  clock : Nat
deriving Repr

variable {K V : Type} [DecidableEq K]

/-- Association-list lookup (`HashMap::get`). -/
def assocGet (m : List (K × Record V)) (k : K) : Option (Record V) :=
  match m with
  | [] => none
  | (k', r) :: rest => if k' = k then some r else assocGet rest k

/-- Association-list insert-or-update (`HashMap::entry` occupied/vacant). -/
def assocSet (m : List (K × Record V)) (k : K) (r : Record V) :
    List (K × Record V) :=
  match m with
  | [] => [(k, r)]
  | (k', r') :: rest =>
      if k' = k then (k', r) :: rest else (k', r') :: assocSet rest k r

/-- `HashTtlCache::new`.  The constructor asserts that a supplied default TTL
    is positive (`none` models the panic) and then rebinds `default_ttl` to
    `None` before storing it — the argument is discarded. -/
def new (now : Nat) (default_ttl : Option Nat) : Option (HashTtlCache K V) :=
  match default_ttl with
  | some ttl =>
      if ttl = 0 then none
      else some { map := [], graveyard := [], default_ttl := none, clock := now }
  | none => some { map := [], graveyard := [], default_ttl := none, clock := now }

/-- `HashTtlCache::insert_with_ttl`.  Asserts a supplied TTL is positive
    (`none` models the panic); returns the prior value only if it was still
    live; records a tombstone when the new entry has an expiry. -/
def insert_with_ttl (c : HashTtlCache K V) (key : K) (value : V)
    (ttl : Option Nat) : Option (HashTtlCache K V × Option V) :=
  match ttl with
  | some t =>
      if t = 0 then none
      else some (insertCore c key value (some (c.clock + t)))
  | none => some (insertCore c key value none)
where
  insertCore (c : HashTtlCache K V) (key : K) (value : V)
      (expiry : Option Nat) : HashTtlCache K V × Option V :=
    let old_value :=
      match assocGet c.map key with
      | some record =>
          match record.expiry with
          | some e => if hasExpired e c.clock then none else some record.value
          | none => some record.value
      | none => none
    let map' := assocSet c.map key { value := value, expiry := expiry }
    let graveyard' :=
      match expiry with
      | some e => c.graveyard ++ [(key, e)]
      | none => c.graveyard
    ({ c with map := map', graveyard := graveyard' }, old_value)

/-- `HashTtlCache::insert`: insert with the stored default TTL. -/
def insert (c : HashTtlCache K V) (key : K) (value : V) :
    Option (HashTtlCache K V × Option V) :=
  insert_with_ttl c key value c.default_ttl

/-- `HashTtlCache::get`: a bare map lookup.  The source returns the record's
    value without consulting its expiry. -/
def get (c : HashTtlCache K V) (key : K) : Option V :=
  (assocGet c.map key).map (·.value)

/-- `HashTtlCache::advance_clock`: asserts monotonicity (`none` models the
    panic on clock regress) and stores the new clock. -/
def advance_clock (c : HashTtlCache K V) (now : Nat) :
    Option (HashTtlCache K V) :=
  if c.clock ≤ now then some { c with clock := now } else none

/-- A sequence of `advance_clock` calls, each of which must succeed. -/
def advanceMany (c : HashTtlCache K V) : List Nat → Option (HashTtlCache K V)
  | [] => some c
  | now :: rest =>
      match advance_clock c now with
      | some c' => advanceMany c' rest
      | none => none

/-- `HashTtlCache::iter`: yields only entries that have not expired. -/
def iter (c : HashTtlCache K V) : List (K × V) :=
  c.map.filterMap fun kr =>
    match kr.2.expiry with
    | some e => if hasExpired e c.clock then none else some (kr.1, kr.2.value)
    | none => some (kr.1, kr.2.value)

/-- `HashTtlCache::clear`. -/
def clear (c : HashTtlCache K V) : HashTtlCache K V :=
  { c with map := [], graveyard := [] }

end TtlCache

namespace Arp

/-- An Ethernet MAC address, stored as its six octets
    (`MacAddress` from the ethernet2 codec). -/
structure MacAddress where
  octets : List Nat
deriving Repr, DecidableEq

/-- `DUMMY_MAC_ADDRESS` in `arp/cache/mod.rs`. -/
def DUMMY_MAC_ADDRESS : MacAddress := ⟨[0, 0, 0, 0, 0, 0]⟩

/-- `Record` in `arp/cache/mod.rs`: an address resolution. -/
structure CacheRecord where
  link_addr : MacAddress
  ipv4_addr : Nat
deriving Repr, DecidableEq

/-- `ArpCache`: the TTL cache of IPv4 (a `u32`) to resolution record, the
    pending-waiter map (only waiter presence is modelled; the oneshot send
    is an effect on the peer's future), and the disable flag. -/
structure ArpCache where
  cache : TtlCache.HashTtlCache Nat CacheRecord
  waiters : List Nat
  disable : Bool

/-- `ArpCache::insert`: fulfil and drop any waiter for the address, then
    cache the resolution with the cache's default TTL. -/
def ArpCache.insert (c : ArpCache) (ipv4_addr : Nat) (link_addr : MacAddress) :
    Option (ArpCache × Option MacAddress) :=
  let waiters' := c.waiters.filter (· ≠ ipv4_addr)
  (TtlCache.insert c.cache ipv4_addr
      { link_addr := link_addr, ipv4_addr := ipv4_addr }).map
    fun p => ({ c with cache := p.1, waiters := waiters' },
              p.2.map (·.link_addr))

/-- `ArpCache::get_link_addr`: the disabled cache answers every query with
    the dummy address; otherwise a (expiry-ignoring) cache `get`. -/
def ArpCache.get_link_addr (c : ArpCache) (ipv4_addr : Nat) :
    Option MacAddress :=
  if c.disable then some DUMMY_MAC_ADDRESS
  else (TtlCache.get c.cache ipv4_addr).map (·.link_addr)

/-- `ArpCache::advance_clock`. -/
def ArpCache.advance_clock (c : ArpCache) (now : Nat) : Option ArpCache :=
  (TtlCache.advance_clock c.cache now).map fun k => { c with cache := k }

/-! ARP PDU wire codec (`src/protocols/arp/pdu/mod.rs`).  Buffers are lists
    of byte values; `NetworkEndian` reads become big-endian arithmetic. -/

def ARP_HTYPE_ETHER2 : Nat := 1
def ARP_HLEN_ETHER2 : Nat := 6
def ARP_PTYPE_IPV4 : Nat := 0x800
def ARP_PLEN_IPV4 : Nat := 4
def ARP_MESSAGE_SIZE : Nat := 28

/-- `NetworkEndian::read_u16(&buf[i..i+2])`. -/
def read_u16 (buf : List Nat) (i : Nat) : Nat :=
  256 * buf.getD i 0 + buf.getD (i + 1) 0

/-- `NetworkEndian::read_u32(&buf[i..i+4])`. -/
def read_u32 (buf : List Nat) (i : Nat) : Nat :=
  16777216 * buf.getD i 0 + 65536 * buf.getD (i + 1) 0 +
    256 * buf.getD (i + 2) 0 + buf.getD (i + 3) 0

/-- `MacAddress::from_bytes(&buf[i..i+6])`. -/
def macFromBytes (buf : List Nat) (i : Nat) : MacAddress :=
  ⟨(buf.drop i).take 6⟩

/-- Big-endian bytes of a `u16` value (`NetworkEndian::write_u16`). -/
def u16Bytes (n : Nat) : List Nat := [n / 256 % 256, n % 256]

/-- Big-endian octets of a `u32` value (`Ipv4Addr::octets` after
    `Ipv4Addr::from(u32)`). -/
def u32Bytes (n : Nat) : List Nat :=
  [n / 16777216 % 256, n / 65536 % 256, n / 256 % 256, n % 256]

/-- `ArpOperation`: request = 1, reply = 2. -/
inductive ArpOperation where
  | request
  | reply
deriving Repr, DecidableEq

/-- `ArpOperation as u16`. -/
def ArpOperation.toU16 : ArpOperation → Nat
  | .request => 1
  | .reply => 2

/-- `FromPrimitive::from_u16` for `ArpOperation`. -/
def ArpOperation.fromU16 (n : Nat) : Option ArpOperation :=
  if n = 1 then some .request else if n = 2 then some .reply else none

/-- `ArpPdu`: the parsed protocol data unit.  The fixed fields (htype, ptype,
    hlen, plen) are omitted in the source and re-emitted as constants. -/
structure ArpPdu where
  oper : ArpOperation
  sender_hardware_addr : MacAddress
  sender_protocol_addr : Nat
  target_hardware_addr : MacAddress
  target_protocol_addr : Nat
deriving Repr, DecidableEq

/-- `ArpPdu::parse`.  A short buffer fails with `Malformed`; each fixed-field
    mismatch fails with `Unsupported` (with the detail string the source
    uses); otherwise the five variable fields are extracted. -/
def ArpPdu.parse (buf : List Nat) : Except Fail ArpPdu :=
  if buf.length < ARP_MESSAGE_SIZE then
    .error (.Malformed "ARP message too short")
  else if read_u16 buf 0 ≠ ARP_HTYPE_ETHER2 then
    .error (.Unsupported "Unsupported HTYPE")
  else if read_u16 buf 2 ≠ ARP_PTYPE_IPV4 then
    .error (.Unsupported "Unsupported PTYPE")
  else if buf.getD 4 0 ≠ ARP_HLEN_ETHER2 then
    .error (.Unsupported "Unsupported HLEN")
  else if buf.getD 5 0 ≠ ARP_PLEN_IPV4 then
    .error (.Unsupported "Unsupported PLEN")
  else
    match ArpOperation.fromU16 (read_u16 buf 6) with
    | none => .error (.Unsupported "Unsupported OPER")
    | some op =>
        .ok { oper := op
              sender_hardware_addr := macFromBytes buf 8
              sender_protocol_addr := read_u32 buf 14
              target_hardware_addr := macFromBytes buf 18
              target_protocol_addr := read_u32 buf 24 }

/-- `ArpPdu::serialize`: the 28 bytes written into the output buffer. -/
def ArpPdu.serialize (pdu : ArpPdu) : List Nat :=
  u16Bytes ARP_HTYPE_ETHER2 ++ u16Bytes ARP_PTYPE_IPV4 ++
    [ARP_HLEN_ETHER2, ARP_PLEN_IPV4] ++ u16Bytes pdu.oper.toU16 ++
    pdu.sender_hardware_addr.octets ++ u32Bytes pdu.sender_protocol_addr ++
    pdu.target_hardware_addr.octets ++ u32Bytes pdu.target_protocol_addr

end Arp

namespace Udp

/-- An IPv4 endpoint: address (a `u32`) and 16-bit port. -/
structure Endpoint where
  addr : Nat
  port : Nat
deriving Repr, DecidableEq

/-- Modelled from the spec: the per-fd UDP socket record
    (`src/protocols/udp/socket.rs` is not under src/): "per-fd socket record
    (optional local endpoint, optional remote endpoint)".  `local_ep` is the
    source's `local` (a Lean keyword), `remote_ep` its `remote`. -/
structure Socket where
  local_ep : Option Endpoint
  remote_ep : Option Endpoint
deriving Repr, DecidableEq

/-- Modelled from the spec: a listener
    (`src/protocols/udp/listener.rs` is not under src/): "listener { FIFO of
    (remote, buffer), optional waker }".  Only waker presence is modelled. -/
structure Listener where
  datagrams : List (Option Endpoint × List Nat)
  hasWaker : Bool
deriving Repr, DecidableEq

/-- `Listener::default()`. -/
def Listener.default : Listener := { datagrams := [], hasWaker := false }

/-- A transmitted UDP datagram (`UdpDatagram::new` in `udp/peer.rs`): the
    Ethernet header fields, the IPv4 source and destination, the UDP ports,
    the payload and the checksum-emission flag. -/
structure UdpDatagram where
  eth_dst_addr : Arp.MacAddress
  eth_src_addr : Arp.MacAddress
  ip_src_addr : Nat
  ip_dst_addr : Nat
  udp_src_port : Option Nat
  udp_dst_port : Nat
  payload : List Nat
  tx_checksum : Bool
deriving Repr, DecidableEq

/-- `UdpPeerInner` plus the runtime facts `send_datagram` consults
    (`rt.local_link_addr()`, `rt.local_ipv4_addr()`,
    `rt.udp_options().tx_checksum()`).  The ARP peer is represented by the
    `ArpCache` its `try_query` probes; `rt.transmit` appends to
    `transmitted`; the deferred-send channel is the `outgoing` list. -/
structure UdpPeerInner where
  sockets : List (Nat × Socket)
  bound : List (Endpoint × Listener)
  outgoing : List (Option Endpoint × Endpoint × List Nat)
  arp : Arp.ArpCache
  local_link_addr : Arp.MacAddress
  local_ipv4_addr : Nat
  tx_checksum : Bool
  transmitted : List UdpDatagram

/-- Association-list lookup for sockets (`HashMap::get`). -/
def sockGet (m : List (Nat × Socket)) (fd : Nat) : Option Socket :=
  match m with
  | [] => none
  | (fd', s) :: rest => if fd' = fd then some s else sockGet rest fd

/-- Association-list insert-or-update for sockets. -/
def sockSet (m : List (Nat × Socket)) (fd : Nat) (s : Socket) :
    List (Nat × Socket) :=
  match m with
  | [] => [(fd, s)]
  | (fd', s') :: rest =>
      if fd' = fd then (fd', s) :: rest else (fd', s') :: sockSet rest fd s

/-- Association-list lookup for listeners (`HashMap::contains_key`/`get`). -/
def boundGet (m : List (Endpoint × Listener)) (ep : Endpoint) :
    Option Listener :=
  match m with
  | [] => none
  | (ep', l) :: rest => if ep' = ep then some l else boundGet rest ep

/-- `arp::Peer::try_query`.  Modelled from the spec
    (`src/protocols/arp/peer.rs` is not under src/): "non-blocking cache
    probe" — the `ArpCache::get_link_addr` lookup. -/
def tryQuery (c : Arp.ArpCache) (ipv4_addr : Nat) : Option Arp.MacAddress :=
  Arp.ArpCache.get_link_addr c ipv4_addr

/-- `UdpPeerInner::send_datagram`: on an ARP fast-path hit build and transmit
    the datagram at once; on a miss enqueue `(local, remote, buf)` for the
    deferred-send background task.  Always returns `Ok(())`. -/
def send_datagram (inner : UdpPeerInner) (buf : List Nat)
    (lcl : Option Endpoint) (remote : Endpoint) : UdpPeerInner :=
  match tryQuery inner.arp remote.addr with
  | some link_addr =>
      { inner with transmitted := inner.transmitted ++
          [{ eth_dst_addr := link_addr
             eth_src_addr := inner.local_link_addr
             ip_src_addr := inner.local_ipv4_addr
             ip_dst_addr := remote.addr
             udp_src_port := lcl.map (·.port)
             udp_dst_port := remote.port
             payload := buf
             tx_checksum := inner.tx_checksum }] }
  | none =>
      { inner with outgoing := inner.outgoing ++ [(lcl, remote, buf)] }

/-- `UdpPeer::bind`.  The endpoint-in-use check precedes every mutation; the
    later `AddressInUse` arm re-checks the same map and is unreachable. -/
def bind (inner : UdpPeerInner) (fd : Nat) (addr : Endpoint) :
    Except Fail UdpPeerInner :=
  if (boundGet inner.bound addr).isSome then
    .error (.Malformed "Port already listening")
  else
    match sockGet inner.sockets fd with
    | some s =>
        if s.local_ep = none then
          let inner' := { inner with
            sockets := sockSet inner.sockets fd { s with local_ep := some addr } }
          if (boundGet inner'.bound addr).isSome then .error .AddressInUse
          else .ok { inner' with
            bound := inner'.bound ++ [(addr, Listener.default)] }
        else .error (.Malformed "Invalid file descriptor on bind")
    | none => .error (.Malformed "Invalid file descriptor on bind")

/-- `UdpPeer::push`: requires the socket to be both bound and connected, then
    defers to `send_datagram`.  The guard order mirrors the source's match
    arms. -/
def push (inner : UdpPeerInner) (fd : Nat) (buf : List Nat) :
    Except Fail UdpPeerInner :=
  match sockGet inner.sockets fd with
  | some s =>
      if s.local_ep.isSome ∧ s.remote_ep.isSome then
        .ok (send_datagram inner buf s.local_ep (s.remote_ep.getD ⟨0, 0⟩))
      else if s.local_ep.isSome then .error .BadFileDescriptor
      else if s.remote_ep.isSome then .error .BadFileDescriptor
      else .error (.Malformed "Invalid file descriptor")
  | none => .error (.Malformed "Invalid file descriptor")

end Udp

namespace Tcp

/-- An unacknowledged segment
    (`UnackedSegment`: used via `unacked_queue.front_mut()` in
    `retransmitter.rs`; the type declaration is not under src/, its `bytes`
    and `initial_tx` fields are the two the source touches). -/
structure Segment where
  bytes : List Nat
  initial_tx : Option Nat
deriving Repr, DecidableEq

/-- Modelled from the spec: the RTO estimator
    (`src/protocols/tcp/established/state/rto.rs` is not under src/):
    "smoothed RTT + variance per RFC 6298, with `record_failure()` that backs
    off".  Only the two members `retransmit` calls are modelled: the current
    estimate, which `record_failure` backs off by doubling (RFC 6298 §5.5),
    and a failure count recording each `record_failure` call. -/
structure Rto where
  est : Nat
  failures : Nat
deriving Repr, DecidableEq

/-- `rto.record_failure()`: back off the estimate, record the failure. -/
def Rto.record_failure (r : Rto) : Rto :=
  { est := 2 * r.est, failures := r.failures + 1 }

/-- `rto.estimate()`. -/
def Rto.estimate (r : Rto) : Nat := r.est

/-- The sender fields `retransmit` touches (`cb.sender` — the `Sender` type
    is not under src/; the fields and their meaning follow the spec's TCP
    control block: unacked queue, `base_seq_no`, watched retransmit deadline,
    RTO estimator). -/
structure SenderState where
  unacked_queue : List Segment
  base_seq_no : Nat
  retransmit_deadline : Option Nat
  rto : Rto
deriving Repr, DecidableEq

/-- `RetransmitCause` in `retransmitter.rs`. -/
inductive RetransmitCause where
  | timeOut
  | fastRetransmit
deriving Repr, DecidableEq

/-- The segment `cb.emit` puts on the wire: the header's sequence number, the
    segment payload, and the resolved remote link address. -/
structure EmittedSegment where
  seq_num : Nat
  bytes : List Nat
  link_addr : Arp.MacAddress
deriving Repr, DecidableEq

/-- `retransmit` in `retransmitter.rs`, after the awaited ARP query has
    resolved to `remote_link_addr` and with `cb.rt.now()` equal to `now`.
    `none` models the panic on an empty unacked queue.  On cause `TimeOut`
    the RTO estimator records a failure before the new deadline is computed;
    the head segment's `initial_tx` is cleared and it is resent with sequence
    number `base_seq_no`. -/
def retransmit (cause : RetransmitCause) (s : SenderState) (now : Nat)
    (remote_link_addr : Arp.MacAddress) :
    Option (SenderState × EmittedSegment) :=
  let seq_no := s.base_seq_no
  match s.unacked_queue with
  | [] => none
  | segment :: rest =>
      let rto' :=
        match cause with
        | .timeOut => s.rto.record_failure
        | .fastRetransmit => s.rto
      let segment' := { segment with initial_tx := none }
      let deadline := now + rto'.estimate
      some ({ s with unacked_queue := segment' :: rest
                     rto := rto'
                     retransmit_deadline := some deadline },
            { seq_num := seq_no
              bytes := segment.bytes
              link_addr := remote_link_addr })

end Tcp

namespace Sched

/-- The scan inside one iteration of `LibOS::wait_any`'s loop: walk the queue
    tokens in index order and return the first whose task has completed
    (`handle.has_completed()`), together with its index.  `completed` is the
    scheduler's completion state during that sweep. -/
def sweepFrom (completed : Nat → Bool) : Nat → List Nat → Option (Nat × Nat)
  | _, [] => none
  | i, qt :: rest =>
      if completed qt then some (i, qt) else sweepFrom completed (i + 1) rest

/-- One `wait_any` sweep over `qts`, starting at index 0. -/
def waitAnySweep (completed : Nat → Bool) (qts : List Nat) :
    Option (Nat × Nat) :=
  sweepFrom completed 0 qts

end Sched

namespace Cubic

/-- The binade scale of `a`: the least `s` with `a / 2^s < 2^24`, found by
    repeated halving.  The structural fuel of 96 covers every `a < 2^120`,
    far beyond the `u32 * significand < 2^56` products this model forms
    (fuel keeps the recursion kernel-reducible on literals). -/
def scaleLoop : Nat → Nat → Nat
  | 0, _ => 0
  | fuel + 1, x => if x < 16777216 then 0 else scaleLoop fuel (x / 2) + 1

/-- Round a nonnegative integer to 24 significant bits, ties to even: the
    effect of IEEE-754 binary32 rounding on an exact integer-scaled value
    (the power-of-two scale passes through the rounding unchanged). -/
def roundSig24 (a : Nat) : Nat :=
  if a < 16777216 then a
  else
    let s := scaleLoop 96 a
    let q := a / 2 ^ s
    let r := a % 2 ^ s
    let q' :=
      if 2 ^ s < 2 * r ∨ (2 * r = 2 ^ s ∧ q % 2 = 1) then q + 1 else q
    q' * 2 ^ s

/-- `(x as f32 * c) as u32` for a nonnegative integer `x` and an f32 constant
    `c` with significand `m` at scale `2^-24`: round `x` to f32, multiply
    exactly (scaled by `2^24`), round the product to f32, then truncate
    toward zero, saturating at `u32::MAX` (Rust float-to-int `as` cast). -/
def f32MulToU32 (m x : Nat) : Nat :=
  min (roundSig24 (roundSig24 x * m) / 16777216) 4294967295

/-- The binary32 significand of `BETA_CUBIC = 0.7f32` at scale `2^-24`:
    `0.7f32 = 11744051 / 2^24`. -/
def BETA_SIG : Nat := 11744051

/-- The binary32 significand of `(1. + BETA_CUBIC) / 2.` computed in f32, at
    scale `2^-24`: `1 + 0.7f32 = 28521267/2^24` rounds (tie, to even) to
    `28521268/2^24`, and halving is exact, giving `14260634 / 2^24`. -/
def HALF1BETA_SIG : Nat := 14260634

/-- `DUP_ACK_THRESHOLD`. -/
def DUP_ACK_THRESHOLD : Nat := 3

/-- The `Cubic` congestion-control state
    (`congestion_ctrl/cubic.rs`).  Wall-clock fields (`ca_start`,
    `last_send_time`, `rtt_at_last_send`) are omitted: every read of them
    feeds either the congestion-avoidance float computation or the idle test,
    both of which the events below carry as oracle inputs.
    `congestion_event_seen` is ghost instrumentation recording that a fast
    recovery entry or an RTO has happened; the source writes no such field
    and no modelled operation reads it. -/
structure CubicState where
  mss : Nat
  cwnd : Nat
  fast_convergence : Bool
  initial_cwnd : Nat
  last_congestion_was_rto : Bool
  retransmitted_packets_in_flight : Nat
  ssthresh : Nat
  w_max : Nat
  duplicate_ack_count : Nat
  fast_retransmit_now : Bool
  in_fast_recovery : Bool
  prev_ack_seq_no : Nat
  recover : Nat
  limited_transmit_cwnd_increase : Nat
  congestion_event_seen : Bool
deriving Repr, DecidableEq

/-- The congestion-avoidance window update of `on_ack_received_ss_ca`.  The
    source computes it from `f32` cube roots and the wall-clock time since
    `ca_start`; the model carries the outcome as a nondeterministic oracle on
    the event, over-approximating the source: `friendly w` is the
    TCP-friendly region's `(w_est * mss) as u32`, `concave inc` the
    concave/convex region's `cwnd_inc as u32` (a saturating cast, hence a
    nonnegative increment). -/
inductive CaOutcome where
  | friendly (w : Nat)
  | concave (inc : Nat)
deriving Repr, DecidableEq

/-- One congestion-control event, carrying the sender state the source reads
    through `&Sender` (`base_seq_no`, `sent_seq_no` — the `Sender` type is
    not under src/) and the oracles for wall-clock-dependent branches. -/
inductive CubicEvent where
  | ackReceived (ack_seq_no base_seq_no sent_seq_no : Nat) (ca : CaOutcome)
  | rto (sent_seq_no : Nat)
  | send (num_bytes_sent : Nat)
  | cwndCheckBeforeSend (long_time_since_send : Bool)
  | fastRetransmit
  | baseSeqNoWraparound
deriving Repr, DecidableEq

/-- `CongestionControl::new` for `Cubic`: the initial congestion window
    follows RFC 5681 §3.1; ssthresh starts at `u32::MAX`; `recover` and
    `prev_ack_seq_no` start at the initial send sequence number. -/
def CubicState.new (mss seq_no : Nat) (fast_convergence : Bool) :
    CubicState :=
  let initial_cwnd :=
    if mss ≤ 1095 then wrap (4 * mss)
    else if mss ≤ 2190 then wrap (3 * mss)
    else wrap (2 * mss)
  { mss := mss
    cwnd := initial_cwnd
    fast_convergence := fast_convergence
    initial_cwnd := initial_cwnd
    last_congestion_was_rto := false
    retransmitted_packets_in_flight := 0
    ssthresh := 4294967295
    w_max := 0
    duplicate_ack_count := 0
    fast_retransmit_now := false
    in_fast_recovery := false
    prev_ack_seq_no := seq_no
    recover := seq_no
    limited_transmit_cwnd_increase := 0
    congestion_event_seen := false }

/-- `Cubic::fast_convergence`: compare `cwnd` and `w_max` in whole-MSS units
    and either shrink `w_max` to `cwnd * (1+β)/2` (computed in f32) or set it
    to `cwnd`.  (The `u32` divisions panic in Rust when `mss = 0`; the
    theorems assume `0 < mss`.) -/
def fastConvergenceStep (s : CubicState) : CubicState :=
  if s.cwnd / s.mss < s.w_max / s.mss then
    { s with w_max := f32MulToU32 HALF1BETA_SIG s.cwnd }
  else
    { s with w_max := s.cwnd }

/-- The duplicate-ACK distance `ack_seq_no_diff` in `on_dup_ack_received`
    (wrapping subtraction of the smaller from the larger). -/
def dupDiff (s : CubicState) (ack_seq_no : Nat) : Nat :=
  if s.prev_ack_seq_no < ack_seq_no then ack_seq_no - s.prev_ack_seq_no
  else s.prev_ack_seq_no - ack_seq_no

/-- `Cubic::on_dup_ack_received` (including `increment_dup_ack_count`): bump
    the counter (crediting limited transmit below the threshold), and on the
    third duplicate ACK — when the RFC 6582 recover check or the
    retransmitted-packet-dropped heuristic passes — enter fast recovery:
    `recover ← sent_seq_no`, apply fast convergence (or `w_max ← cwnd`),
    `ssthresh ← max(⌊β·cwnd⌋, 2·MSS)`, `cwnd ← ⌊β·cwnd⌋`, raise the
    fast-retransmit flag.  Past the threshold, or already in fast recovery,
    inflate `cwnd` by one MSS. -/
def onDupAckReceived (s : CubicState) (ack_seq_no sent_seq_no : Nat) :
    CubicState :=
  let duplicate_ack_count := wrap (s.duplicate_ack_count + 1)
  let limited_transmit_cwnd_increase :=
    if duplicate_ack_count < DUP_ACK_THRESHOLD then
      wrap (s.limited_transmit_cwnd_increase + s.mss)
    else s.limited_transmit_cwnd_increase
  let ack_seq_no_diff := dupDiff s ack_seq_no
  let cwnd := s.cwnd
  if duplicate_ack_count = DUP_ACK_THRESHOLD ∧
      (s.recover < wsub ack_seq_no 1 ∨
        (s.mss < cwnd ∧ ack_seq_no_diff ≤ wrap (4 * s.mss))) then
    let reduced_cwnd := f32MulToU32 BETA_SIG cwnd
    let s' := { s with
      duplicate_ack_count := duplicate_ack_count
      limited_transmit_cwnd_increase := limited_transmit_cwnd_increase
      in_fast_recovery := true
      recover := sent_seq_no }
    let s' := if s'.fast_convergence then fastConvergenceStep s'
              else { s' with w_max := cwnd }
    { s' with ssthresh := max reduced_cwnd (wrap (2 * s'.mss))
              cwnd := reduced_cwnd
              fast_retransmit_now := true
              congestion_event_seen := true }
  else if DUP_ACK_THRESHOLD < duplicate_ack_count ∨ s.in_fast_recovery then
    { s with
      duplicate_ack_count := duplicate_ack_count
      limited_transmit_cwnd_increase := limited_transmit_cwnd_increase
      cwnd := wrap (s.cwnd + s.mss) }
  else
    { s with
      duplicate_ack_count := duplicate_ack_count
      limited_transmit_cwnd_increase := limited_transmit_cwnd_increase }

/-- `Cubic::on_ack_received_fast_recovery`: a full acknowledgement
    (`ack_seq_no > recover`) sets `cwnd ← min(ssthresh,
    max(bytes_outstanding, MSS) + MSS)` and leaves fast recovery; a partial
    acknowledgement re-raises the fast-retransmit flag and deflates `cwnd` by
    the newly acked bytes (adding back one MSS when at least an MSS was
    acked). -/
def onAckReceivedFastRecovery (s : CubicState)
    (ack_seq_no base_seq_no sent_seq_no : Nat) : CubicState :=
  let bytes_outstanding := wsub sent_seq_no base_seq_no
  let bytes_acknowledged := wsub ack_seq_no base_seq_no
  let mss := s.mss
  if s.recover < ack_seq_no then
    { s with cwnd := min s.ssthresh (wrap (max bytes_outstanding mss + mss))
             last_congestion_was_rto := false
             in_fast_recovery := false }
  else
    let s := { s with fast_retransmit_now := true }
    if mss ≤ bytes_acknowledged then
      { s with cwnd := wrap (wsub s.cwnd bytes_acknowledged + mss) }
    else
      { s with cwnd := wsub s.cwnd bytes_acknowledged }

/-- `Cubic::on_ack_received_ss_ca`: slow start (`cwnd < ssthresh`) grows the
    window by `min(bytes_acknowledged, MSS)`; otherwise the CUBIC
    congestion-avoidance update applies, with its float-and-wall-clock result
    supplied by the event's oracle (`friendly` sets the window, `concave`
    adds a nonnegative increment). -/
def onAckReceivedSsCa (s : CubicState) (ack_seq_no base_seq_no : Nat)
    (ca : CaOutcome) : CubicState :=
  let bytes_acknowledged := wsub ack_seq_no base_seq_no
  if s.cwnd < s.ssthresh then
    { s with cwnd := wrap (s.cwnd + min bytes_acknowledged s.mss) }
  else
    match ca with
    | .friendly w => { s with cwnd := min w 4294967295 }
    | .concave inc => { s with cwnd := wrap (s.cwnd + min inc 4294967295) }

/-- `Cubic::on_rto_ss_ca`: apply fast convergence (or `w_max ← cwnd`), reset
    `cwnd ← MSS`, and — only when no retransmitted packet is in flight —
    shrink `ssthresh ← max(⌊β·cwnd⌋, 2·MSS)` using the pre-reset window; then
    count the upcoming retransmission and mark the congestion as
    RTO-detected. -/
def onRtoSsCa (s : CubicState) : CubicState :=
  let cwnd := s.cwnd
  let s := if s.fast_convergence then fastConvergenceStep s
           else { s with w_max := cwnd }
  let s := { s with cwnd := s.mss }
  let rpif := s.retransmitted_packets_in_flight
  let s :=
    if rpif = 0 then
      { s with ssthresh := max (f32MulToU32 BETA_SIG cwnd) (wrap (2 * s.mss)) }
    else s
  { s with retransmitted_packets_in_flight := wrap (rpif + 1)
           last_congestion_was_rto := true
           congestion_event_seen := true }

/-- `Cubic::on_rto_fast_recovery`: exit fast recovery and advance
    `recover` to `sent_seq_no`. -/
def onRtoFastRecovery (s : CubicState) (sent_seq_no : Nat) : CubicState :=
  { s with recover := sent_seq_no, in_fast_recovery := false }

/-- `Cubic::on_rto`. -/
def onRto (s : CubicState) (sent_seq_no : Nat) : CubicState :=
  onRtoFastRecovery (onRtoSsCa s) sent_seq_no

/-- `Cubic::on_ack_received`: a zero-byte acknowledgement is a duplicate
    (handled by `on_dup_ack_received`, then the retransmitted-in-flight
    counter saturating-decrements); new data resets the duplicate counter and
    dispatches to the fast-recovery or slow-start/congestion-avoidance
    handler, then records `prev_ack_seq_no`. -/
def onAckReceived (s : CubicState) (ack_seq_no base_seq_no sent_seq_no : Nat)
    (ca : CaOutcome) : CubicState :=
  let bytes_acknowledged := wsub ack_seq_no base_seq_no
  if bytes_acknowledged = 0 then
    let s := onDupAckReceived s ack_seq_no sent_seq_no
    { s with retransmitted_packets_in_flight :=
        s.retransmitted_packets_in_flight - 1 }
  else
    let s := { s with duplicate_ack_count := 0 }
    let s :=
      if s.in_fast_recovery then
        onAckReceivedFastRecovery s ack_seq_no base_seq_no sent_seq_no
      else onAckReceivedSsCa s ack_seq_no base_seq_no ca
    { s with prev_ack_seq_no := ack_seq_no }

/-- `SlowStartCongestionAvoidance::on_send` for `Cubic`: the limited-transmit
    credit saturating-decrements by the bytes sent (the wall-clock
    `last_send_time`/`rtt_at_last_send` stores are not modelled; their only
    read is the idle test, an event oracle). -/
def onSend (s : CubicState) (num_bytes_sent : Nat) : CubicState :=
  { s with limited_transmit_cwnd_increase :=
      s.limited_transmit_cwnd_increase - num_bytes_sent }

/-- `Cubic::on_cwnd_check_before_send`: when the connection has been idle
    longer than the RTT at last send (the event's wall-clock oracle), clamp
    `cwnd` to the restart window and clear the limited-transmit credit. -/
def onCwndCheckBeforeSend (s : CubicState) (long_time_since_send : Bool) :
    CubicState :=
  if long_time_since_send then
    { s with cwnd := min s.initial_cwnd s.cwnd
             limited_transmit_cwnd_increase := 0 }
  else s

/-- `Cubic::on_fast_retransmit`: clear the one-shot flag without notifying. -/
def onFastRetransmit (s : CubicState) : CubicState :=
  { s with fast_retransmit_now := false }

/-- `Cubic::on_base_seq_no_wraparound`: `recover ← 0`. -/
def onBaseSeqNoWraparound (s : CubicState) : CubicState :=
  { s with recover := 0 }

/-- One congestion-control event. -/
def step (s : CubicState) : CubicEvent → CubicState
  | .ackReceived ack base sent ca => onAckReceived s ack base sent ca
  | .rto sent => onRto s sent
  | .send n => onSend s n
  | .cwndCheckBeforeSend long => onCwndCheckBeforeSend s long
  | .fastRetransmit => onFastRetransmit s
  | .baseSeqNoWraparound => onBaseSeqNoWraparound s

/-- Run a trace of congestion-control events. -/
def run (s : CubicState) (evs : List CubicEvent) : CubicState :=
  evs.foldl step s

/-- The fast-recovery entry guard of `on_dup_ack_received`, evaluated on the
    pre-event state: the incremented duplicate-ACK count reaches the
    threshold and either the RFC 6582 recover check or the
    retransmitted-packet-dropped heuristic passes. -/
def frEntryCond (s : CubicState) (ack_seq_no : Nat) : Bool :=
  decide (wrap (s.duplicate_ack_count + 1) = DUP_ACK_THRESHOLD ∧
    (s.recover < wsub ack_seq_no 1 ∨
      (s.mss < s.cwnd ∧ dupDiff s ack_seq_no ≤ wrap (4 * s.mss))))

/-- Acknowledgement events that cannot shrink the congestion window below
    one MSS: a duplicate ACK that does not enter fast recovery, or a
    new-data ACK arriving in slow start (`cwnd < ssthresh`), in either case
    without `u32` overflow of `cwnd + MSS`.  Every other event kind keeps
    the window unconditionally. -/
def nonShrinkingEvent (s : CubicState) : CubicEvent → Bool
  | .ackReceived ack_seq_no base_seq_no _ _ =>
      if wsub ack_seq_no base_seq_no = 0 then
        !frEntryCond s ack_seq_no && decide (s.cwnd + s.mss < U32MOD)
      else
        decide (s.cwnd < s.ssthresh) && decide (s.cwnd + s.mss < U32MOD)
  | _ => true

/-- A trace consisting only of non-shrinking events. -/
def nonShrinkingTrace (s : CubicState) : List CubicEvent → Bool
  | [] => true
  | e :: evs => nonShrinkingEvent s e && nonShrinkingTrace (step s e) evs

/-- The structural invariant behind the amended C2: outside fast recovery
    and with a nondegenerate MSS, the window and the restart window both
    dominate one MSS. -/
def WindowInv (s : CubicState) : Prop :=
  0 < s.mss ∧ 4 * s.mss < U32MOD ∧ s.in_fast_recovery = false ∧
    s.mss ≤ s.cwnd ∧ s.mss ≤ s.initial_cwnd

/-- The structural invariant behind C8: under a nondegenerate MSS the
    slow-start threshold never drops below two MSS (it starts at `u32::MAX`
    and every later write takes a `max` with `2 * mss`). -/
def SsthreshInv (m : Nat) (s : CubicState) : Prop :=
  s.mss = m ∧ 2 * m ≤ s.ssthresh

end Cubic

/-- An empty ARP cache over an empty TTL cache, for concrete UDP states. -/
def emptyArpCache : Arp.ArpCache :=
  { cache := { map := [], graveyard := [], default_ttl := none, clock := 0 }
    waiters := []
    disable := false }

/-- A concrete UDP peer state with endpoint (7, 80) already bound. -/
def udpBoundInner : Udp.UdpPeerInner :=
  { sockets := [(3, { local_ep := none, remote_ep := none })]
    bound := [({ addr := 7, port := 80 }, Udp.Listener.default)]
    outgoing := []
    arp := emptyArpCache
    local_link_addr := ⟨[0, 0, 0, 0, 0, 1]⟩
    local_ipv4_addr := 7
    tx_checksum := false
    transmitted := [] }

/-! Helper lemmas. -/

namespace TtlCache

lemma assocGet_assocSet {K V : Type} [DecidableEq K]
    (m : List (K × Record V)) (k : K) (r : Record V) :
    assocGet (assocSet m k r) k = some r := by
  induction m with
  | nil => simp [assocSet, assocGet]
  | cons kr rest ih =>
      obtain ⟨k', r'⟩ := kr
      by_cases h : k' = k
      · simp [assocSet, assocGet, h]
      · simp [assocSet, assocGet, h, ih]

lemma assocGet_mem {K V : Type} [DecidableEq K]
    {m : List (K × Record V)} {k : K} {r : Record V}
    (h : assocGet m k = some r) : (k, r) ∈ m := by
  induction m with
  | nil => simp [assocGet] at h
  | cons kr rest ih =>
      obtain ⟨k', r'⟩ := kr
      by_cases hk : k' = k
      · subst hk
        simp [assocGet] at h
        subst h
        exact List.mem_cons_self _ _
      · simp [assocGet, hk] at h
        exact List.mem_cons_of_mem _ (ih h)

lemma advance_clock_fields {K V : Type} [DecidableEq K]
    {c cx : HashTtlCache K V} {now : Nat}
    (h : advance_clock c now = some cx) :
    cx.map = c.map ∧ cx.default_ttl = c.default_ttl := by
  unfold advance_clock at h
  split at h
  · cases h
    exact ⟨rfl, rfl⟩
  · cases h

lemma advanceMany_fields {K V : Type} [DecidableEq K] :
    ∀ (nows : List Nat) (c cx : HashTtlCache K V),
      advanceMany c nows = some cx →
      cx.map = c.map ∧ cx.default_ttl = c.default_ttl := by
  intro nows
  induction nows with
  | nil =>
      intro c cx h
      cases h
      exact ⟨rfl, rfl⟩
  | cons now rest ih =>
      intro c cx h
      unfold advanceMany at h
      split at h
      · next c' hc' =>
          obtain ⟨h1, h2⟩ := ih c' cx h
          obtain ⟨g1, g2⟩ := advance_clock_fields hc'
          exact ⟨h1.trans g1, h2.trans g2⟩
      · cases h

end TtlCache

namespace Arp

lemma u32Bytes_comp (a b c d : Nat) (ha : a < 256) (hb : b < 256)
    (hc : c < 256) (hd : d < 256) :
    u32Bytes (16777216 * a + 65536 * b + 256 * c + d) = [a, b, c, d] := by
  simp only [u32Bytes, List.cons.injEq, and_true]
  refine ⟨?_, ?_, ?_, ?_⟩ <;> omega

end Arp

namespace Sched

lemma sweepFrom_sound (completed : Nat → Bool) :
    ∀ (l : List Nat) (k i qt : Nat),
      sweepFrom completed k l = some (i, qt) →
      k ≤ i ∧ l[i - k]? = some qt ∧ completed qt = true ∧
        ∀ j qt', j < i - k → l[j]? = some qt' → completed qt' = false := by
  intro l
  induction l with
  | nil => intro k i qt h; simp [sweepFrom] at h
  | cons q rest ih =>
      intro k i qt h
      unfold sweepFrom at h
      split at h
      · next hc =>
          cases h
          refine ⟨le_refl _, ?_, hc, ?_⟩
          · simp
          · intro j qt' hj
            omega
      · next hc =>
          obtain ⟨hk, hget, hqt, hmin⟩ := ih (k + 1) i qt h
          refine ⟨by omega, ?_, hqt, ?_⟩
          · have hik : i - k = (i - (k + 1)) + 1 := by omega
            rw [hik]
            simpa using hget
          · intro j qt' hj hget'
            cases j with
            | zero =>
                simp at hget'
                subst hget'
                simpa using hc
            | succ j' =>
                have hj' : j' < i - (k + 1) := by omega
                exact hmin j' qt' hj' (by simpa using hget')

end Sched

namespace Cubic

lemma fastConvergenceStep_fields (s : CubicState) :
    (fastConvergenceStep s).mss = s.mss ∧
    (fastConvergenceStep s).cwnd = s.cwnd ∧
    (fastConvergenceStep s).ssthresh = s.ssthresh ∧
    (fastConvergenceStep s).in_fast_recovery = s.in_fast_recovery ∧
    (fastConvergenceStep s).initial_cwnd = s.initial_cwnd := by
  unfold fastConvergenceStep
  split <;> exact ⟨rfl, rfl, rfl, rfl, rfl⟩

lemma step_mss (s : CubicState) (e : CubicEvent) : (step s e).mss = s.mss := by
  cases e with
  | ackReceived a b t ca =>
      cases ca <;>
        (simp only [step, onAckReceived, onDupAckReceived,
          onAckReceivedFastRecovery, onAckReceivedSsCa] <;>
         split_ifs <;>
         simp [(fastConvergenceStep_fields _).1])
  | rto t =>
      simp only [step, onRto, onRtoSsCa, onRtoFastRecovery]
      split_ifs <;> simp [(fastConvergenceStep_fields _).1]
  | send n => rfl
  | cwndCheckBeforeSend long =>
      simp only [step, onCwndCheckBeforeSend]
      split_ifs <;> rfl
  | fastRetransmit => rfl
  | baseSeqNoWraparound => rfl

lemma run_mss : ∀ (evs : List CubicEvent) (s : CubicState),
    (run s evs).mss = s.mss := by
  intro evs
  induction evs with
  | nil => intro s; rfl
  | cons e rest ih =>
      intro s
      exact (ih (step s e)).trans (step_mss s e)

lemma step_ssthresh_cases (s : CubicState) (e : CubicEvent) :
    (step s e).ssthresh = s.ssthresh ∨
    wrap (2 * s.mss) ≤ (step s e).ssthresh := by
  cases e with
  | ackReceived a b t ca =>
      cases ca <;>
        (simp only [step, onAckReceived, onDupAckReceived,
          onAckReceivedFastRecovery, onAckReceivedSsCa] <;>
         split_ifs <;>
         first
           | (left; simp [(fastConvergenceStep_fields _).2.2.1]; done)
           | (right; simp [(fastConvergenceStep_fields _).1]; done))
  | rto t =>
      simp only [step, onRto, onRtoSsCa, onRtoFastRecovery]
      split_ifs <;>
        first
          | (left; simp [(fastConvergenceStep_fields _).2.2.1]; done)
          | (right; simp [(fastConvergenceStep_fields _).1]; done)
  | send n => left; rfl
  | cwndCheckBeforeSend long =>
      simp only [step, onCwndCheckBeforeSend]
      split_ifs <;> left <;> rfl
  | fastRetransmit => left; rfl
  | baseSeqNoWraparound => left; rfl

lemma run_inv (P : CubicState → Prop) (hP : ∀ s e, P s → P (step s e)) :
    ∀ (evs : List CubicEvent) (s : CubicState), P s → P (run s evs) := by
  intro evs
  induction evs with
  | nil => intro s h; exact h
  | cons e rest ih =>
      intro s h
      exact ih (step s e) (hP s e h)

lemma ssthresh_inv_step (m : Nat) (hm : 4 * m < U32MOD) (s : CubicState)
    (e : CubicEvent) (h : SsthreshInv m s) : SsthreshInv m (step s e) := by
  obtain ⟨h1, h2⟩ := h
  refine ⟨(step_mss s e).trans h1, ?_⟩
  rcases step_ssthresh_cases s e with hc | hc
  · rw [hc]; exact h2
  · refine le_trans ?_ hc
    have hm' : 4 * m < 4294967296 := by simpa [U32MOD] using hm
    have hww : wrap (2 * s.mss) = 2 * m := by
      subst h1
      simp only [wrap, U32MOD]
      omega
    rw [hww]

lemma window_inv_step (s : CubicState) (e : CubicEvent) (h : WindowInv s)
    (hv : nonShrinkingEvent s e = true) : WindowInv (step s e) := by
  obtain ⟨h1, h2, h3, h4, h5⟩ := h
  cases e with
  | ackReceived a b t ca =>
      simp only [step, onAckReceived]
      by_cases h0 : wsub a b = 0
      · rw [if_pos h0]
        rw [nonShrinkingEvent, if_pos h0, Bool.and_eq_true,
          Bool.not_eq_true'] at hv
        obtain ⟨hfr, hof⟩ := hv
        have hof' : s.cwnd + s.mss < U32MOD := of_decide_eq_true hof
        unfold frEntryCond at hfr
        have hnfr := of_decide_eq_false hfr
        unfold onDupAckReceived
        dsimp only
        split
        · next hcond => exact absurd hcond hnfr
        · split
          · refine ⟨h1, h2, h3, ?_, h5⟩
            show s.mss ≤ wrap (s.cwnd + s.mss)
            rw [wrap, Nat.mod_eq_of_lt (by simpa [U32MOD] using hof')]
            omega
          · exact ⟨h1, h2, h3, h4, h5⟩
      · rw [if_neg h0]
        rw [nonShrinkingEvent, if_neg h0, Bool.and_eq_true] at hv
        obtain ⟨hss, hof⟩ := hv
        have hss' : s.cwnd < s.ssthresh := of_decide_eq_true hss
        have hof' : s.cwnd + s.mss < U32MOD := of_decide_eq_true hof
        rw [show ({ s with duplicate_ack_count := 0} :
            CubicState).in_fast_recovery = false from h3]
        simp only [Bool.false_eq_true, if_false]
        unfold onAckReceivedSsCa
        dsimp only
        rw [if_pos (show ({ s with duplicate_ack_count := 0} :
            CubicState).cwnd < _ from hss')]
        refine ⟨h1, h2, rfl, ?_, h5⟩
        show s.mss ≤ wrap (s.cwnd + min (wsub a b) s.mss)
        have hlt : s.cwnd + min (wsub a b) s.mss < U32MOD := by
          have := min_le_right (wsub a b) s.mss
          omega
        rw [wrap, Nat.mod_eq_of_lt hlt]
        omega
  | rto t =>
      simp only [step, onRto, onRtoSsCa, onRtoFastRecovery]
      split_ifs <;>
        refine ⟨?_, ?_, rfl, ?_, ?_⟩ <;>
        simp [(fastConvergenceStep_fields _).1,
          (fastConvergenceStep_fields _).2.2.2.2, h1, h2, h5]
  | send n => exact ⟨h1, h2, h3, h4, h5⟩
  | cwndCheckBeforeSend long =>
      simp only [step, onCwndCheckBeforeSend]
      split
      · exact ⟨h1, h2, h3, le_min h5 h4, h5⟩
      · exact ⟨h1, h2, h3, h4, h5⟩
  | fastRetransmit => exact ⟨h1, h2, h3, h4, h5⟩
  | baseSeqNoWraparound => exact ⟨h1, h2, h3, h4, h5⟩

lemma window_inv_run :
    ∀ (evs : List CubicEvent) (s : CubicState), WindowInv s →
      nonShrinkingTrace s evs = true → WindowInv (run s evs) := by
  intro evs
  induction evs with
  | nil => intro s h _; exact h
  | cons e rest ih =>
      intro s h ht
      rw [nonShrinkingTrace, Bool.and_eq_true] at ht
      exact ih (step s e) (window_inv_step s e h ht.1) ht.2

lemma window_inv_new (mss seq_no : Nat) (fc : Bool) (hpos : 0 < mss)
    (hbound : 4 * mss < U32MOD) :
    WindowInv (CubicState.new mss seq_no fc) := by
  have hi : mss ≤ (CubicState.new mss seq_no fc).initial_cwnd := by
    show mss ≤ (if mss ≤ 1095 then wrap (4 * mss)
      else if mss ≤ 2190 then wrap (3 * mss) else wrap (2 * mss))
    simp only [U32MOD] at hbound
    split_ifs <;>
      (rw [wrap, Nat.mod_eq_of_lt (by simp only [U32MOD]; omega)]; omega)
  exact ⟨hpos, hbound, rfl, hi, hi⟩

end Cubic



/-! Claim theorems. -/

/-- C1: the claim says that after `insert(k, v, ttl)` on the TTL cache and
    `advance_clock(now)` with `now ≥ insertion_time + ttl`, `get(k)` returns
    absent.  The code disagrees: `HashTtlCache::get` is a bare map lookup
    that never consults the entry's expiry (while `insert_with_ttl`'s
    prior-value logic and `iter` both treat such an entry as dead), so the
    expired entry is still returned.  Evaluated at the failing input
    `insert(1, 42, ttl = 5)` at time 0 followed by `advance_clock(5)`:
    `get(1)` yields `Some 42`, not absent. -/
theorem ttlcache_get_ignores_expiry_cex :
    ∃ (c0 c1 c2 : TtlCache.HashTtlCache Nat Nat),
      TtlCache.new 0 none = some c0 ∧
      TtlCache.insert_with_ttl c0 1 42 (some 5) = some (c1, none) ∧
      TtlCache.advance_clock c1 5 = some c2 ∧
      0 + 5 ≤ 5 ∧
      TtlCache.get c2 1 = some 42 :=
  ⟨_, _, _, rfl, rfl, rfl, by decide, rfl⟩

/-- C4: `HashTtlCache::new` discards its (positive) default TTL argument and
    stores `None`; hence `insert` without an explicit TTL creates an entry
    with no expiry which survives any sequence of `advance_clock` calls —
    visible both to `get` and to the expiry-filtering `iter` — and
    `ArpCache::insert` on a cache built this way stores a record with no
    expiry (ARP records inserted this way never expire by TTL). -/
theorem ttlcache_default_ttl_discarded {K V : Type} [DecidableEq K] :
    (∀ (now : Nat) (dttl : Option Nat) (c : TtlCache.HashTtlCache K V),
        TtlCache.new now dttl = some c → c.default_ttl = none) ∧
    (∀ (c c' : TtlCache.HashTtlCache K V) (k : K) (v : V) (old : Option V),
        c.default_ttl = none →
        TtlCache.insert c k v = some (c', old) →
        TtlCache.assocGet c'.map k = some ⟨v, none⟩ ∧
        ∀ (nows : List Nat) (c'' : TtlCache.HashTtlCache K V),
          TtlCache.advanceMany c' nows = some c'' →
          TtlCache.get c'' k = some v ∧ (k, v) ∈ TtlCache.iter c'') ∧
    (∀ (ac : Arp.ArpCache) (ip : Nat) (la : Arp.MacAddress)
        (ac' : Arp.ArpCache) (old : Option Arp.MacAddress),
        ac.cache.default_ttl = none →
        Arp.ArpCache.insert ac ip la = some (ac', old) →
        TtlCache.assocGet ac'.cache.map ip = some ⟨⟨la, ip⟩, none⟩) := by
  refine ⟨?_, ?_, ?_⟩
  · intro now dttl c h
    unfold TtlCache.new at h
    rcases dttl with _ | ttl
    · cases h; rfl
    · dsimp at h
      split at h
      · cases h
      · cases h; rfl
  · intro c c' k v old hd h
    unfold TtlCache.insert at h
    rw [hd] at h
    unfold TtlCache.insert_with_ttl at h
    dsimp at h
    have hmap : c'.map = TtlCache.assocSet c.map k ⟨v, none⟩ := by
      cases h; rfl
    have hget : TtlCache.assocGet c'.map k = some ⟨v, none⟩ := by
      rw [hmap]; exact TtlCache.assocGet_assocSet _ _ _
    refine ⟨hget, ?_⟩
    intro nows c'' hadv
    have hfields := TtlCache.advanceMany_fields nows c' c'' hadv
    have hget'' : TtlCache.assocGet c''.map k = some ⟨v, none⟩ := by
      rw [hfields.1]; exact hget
    constructor
    · unfold TtlCache.get
      rw [hget'']
      rfl
    · unfold TtlCache.iter
      exact List.mem_filterMap.mpr
        ⟨(k, ⟨v, none⟩), TtlCache.assocGet_mem hget'', rfl⟩
  · intro ac ip la ac' old hd h
    unfold Arp.ArpCache.insert at h
    unfold TtlCache.insert at h
    rw [hd] at h
    unfold TtlCache.insert_with_ttl at h
    dsimp [Option.map] at h
    have hmap : ac'.cache.map =
        TtlCache.assocSet ac.cache.map ip ⟨⟨la, ip⟩, none⟩ := by
      cases h; rfl
    rw [hmap]
    exact TtlCache.assocGet_assocSet _ _ _

/-- Witness for C4: a cache created at time 0, `insert(1, 42)` with no
    explicit TTL, clock advanced to 3 and then 7 — the entry is still
    returned by `get` and listed by `iter`. -/
theorem ttlcache_default_ttl_discarded_witness :
    TtlCache.get ({ map := [(1, ⟨42, none⟩)], graveyard := [], default_ttl := none, clock := 7 } : TtlCache.HashTtlCache Nat Nat)
      1 = some 42 ∧
    (1, 42) ∈ TtlCache.iter ({ map := [(1, ⟨42, none⟩)], graveyard := [], default_ttl := none, clock := 7 } : TtlCache.HashTtlCache Nat Nat) :=
  ((ttlcache_default_ttl_discarded (K := Nat) (V := Nat)).2.1
      { map := [], graveyard := [], default_ttl := none, clock := 0 }
      { map := [(1, ⟨42, none⟩)], graveyard := [], default_ttl := none, clock := 0 }
      1 42 none rfl rfl).2 [3, 7]
    { map := [(1, ⟨42, none⟩)], graveyard := [], default_ttl := none, clock := 7 }
    rfl

/-- C5: when the retransmission timer fires (cause `TimeOut`): an empty
    unacked queue panics; otherwise the head segment's `initial_tx` is
    cleared, it is resent with sequence number equal to `base_seq_no`, the
    RTO estimator records a failure, and the next retransmit deadline is set
    to `now + rto.estimate()` (the estimate taken after the recorded
    failure, i.e. after backoff). -/
theorem tcp_retransmit_timeout_spec :
    (∀ (s : Tcp.SenderState) (now : Nat) (la : Arp.MacAddress),
        s.unacked_queue = [] →
        Tcp.retransmit .timeOut s now la = none) ∧
    (∀ (s : Tcp.SenderState) (now : Nat) (la : Arp.MacAddress)
        (seg : Tcp.Segment) (rest : List Tcp.Segment),
        s.unacked_queue = seg :: rest →
        Tcp.retransmit .timeOut s now la =
          some ({ s with
                    unacked_queue := { seg with initial_tx := none } :: rest
                    rto := s.rto.record_failure
                    retransmit_deadline :=
                      some (now + s.rto.record_failure.estimate) },
                { seq_num := s.base_seq_no
                  bytes := seg.bytes
                  link_addr := la }) ∧
        s.rto.record_failure.failures = s.rto.failures + 1) := by
  constructor
  · intro s now la h
    unfold Tcp.retransmit
    rw [h]
  · intro s now la seg rest h
    constructor
    · unfold Tcp.retransmit
      rw [h]
    · rfl

/-- Witness for C5 at a concrete sender state with one unacked segment. -/
theorem tcp_retransmit_timeout_spec_witness :
    Tcp.retransmit .timeOut
        { unacked_queue := [{ bytes := [1, 2], initial_tx := some 4 }]
          base_seq_no := 10
          retransmit_deadline := some 6
          rto := { est := 3, failures := 0 } } 20 ⟨[1, 1, 1, 1, 1, 1]⟩ =
      some ({ unacked_queue := [{ bytes := [1, 2], initial_tx := none }]
              base_seq_no := 10
              retransmit_deadline := some 26
              rto := { est := 6, failures := 1 } },
            { seq_num := 10, bytes := [1, 2],
              link_addr := ⟨[1, 1, 1, 1, 1, 1]⟩ }) ∧
      ({ est := 3, failures := 0 } : Tcp.Rto).record_failure.failures =
        0 + 1 :=
  tcp_retransmit_timeout_spec.2
    { unacked_queue := [{ bytes := [1, 2], initial_tx := some 4 }]
      base_seq_no := 10
      retransmit_deadline := some 6
      rto := { est := 3, failures := 0 } } 20 ⟨[1, 1, 1, 1, 1, 1]⟩
    { bytes := [1, 2], initial_tx := some 4 } [] rfl

/-- C10: whenever a `wait_any` sweep returns, the returned index is the
    lowest index among the tokens whose tasks have completed during that
    sweep: the token at the returned index has completed and every token at
    an earlier index has not. -/
theorem wait_any_lowest_index :
    ∀ (completed : Nat → Bool) (qts : List Nat) (i qt : Nat),
      Sched.waitAnySweep completed qts = some (i, qt) →
      qts[i]? = some qt ∧ completed qt = true ∧
        ∀ j qt', j < i → qts[j]? = some qt' → completed qt' = false := by
  intro completed qts i qt h
  obtain ⟨-, hget, hqt, hmin⟩ := Sched.sweepFrom_sound completed qts 0 i qt h
  simp only [Nat.sub_zero] at hget hmin
  exact ⟨hget, hqt, fun j qt' hj => hmin j qt' hj⟩

/-- Witness for C10: tokens 3 and 5 incomplete, 4 and 6 complete; the sweep
    returns index 2 (token 4), the lowest-index completed token. -/
theorem wait_any_lowest_index_witness :
    [3, 5, 4, 6][2]? = some 4 ∧ (fun qt => qt % 2 == 0) 4 = true ∧
      ∀ j qt', j < 2 → [3, 5, 4, 6][j]? = some qt' →
        (fun qt => qt % 2 == 0) qt' = false :=
  wait_any_lowest_index (fun qt => qt % 2 == 0) [3, 5, 4, 6] 2 4 rfl

/-- C3 counterexample: binding a UDP socket to an endpoint that is already
    bound does fail and does not touch state, but the error kind is
    `Malformed` (details "Port already listening"), not `AddressInUse` as
    claimed: the endpoint-in-use check at the top of `UdpPeer::bind` returns
    `Malformed`, and the later `AddressInUse` arm is dead code.  Evaluated
    at a concrete peer with endpoint (7, 80) already bound. -/
theorem udp_bind_in_use_cex :
    Udp.bind udpBoundInner 3 { addr := 7, port := 80 } =
      .error (.Malformed "Port already listening") ∧
    Udp.bind udpBoundInner 3 { addr := 7, port := 80 } ≠
      .error .AddressInUse := by
  constructor
  · rfl
  · intro h
    rw [show Udp.bind udpBoundInner 3 { addr := 7, port := 80 } =
        .error (.Malformed "Port already listening") from rfl] at h
    simp at h

/-- C3 (amended): `bind(fd, ep)` with `ep` already bound fails with the
    `Malformed` error kind, details "Port already listening", before any
    state change (the check precedes every mutation, so no listener is
    registered and no socket is modified); moreover `bind` can never return
    `AddressInUse` — that arm re-checks a map from which the leading check
    just found the endpoint absent. -/
theorem udp_bind_in_use_malformed :
    (∀ (inner : Udp.UdpPeerInner) (fd : Nat) (ep : Udp.Endpoint),
        (Udp.boundGet inner.bound ep).isSome →
        Udp.bind inner fd ep =
          .error (.Malformed "Port already listening")) ∧
    (∀ (inner : Udp.UdpPeerInner) (fd : Nat) (ep : Udp.Endpoint),
        Udp.bind inner fd ep ≠ .error .AddressInUse) := by
  constructor
  · intro inner fd ep h
    unfold Udp.bind
    rw [if_pos h]
  · intro inner fd ep h
    unfold Udp.bind at h
    split at h
    · simp at h
    · next hguard =>
        split at h
        · next s hs =>
            split at h
            · next hloc =>
                dsimp only at h
                split at h
                · next hdead =>
                    exact hguard (by simpa using hdead)
                · simp at h
            · simp at h
        · simp at h

/-- Witness for C3's amended theorem at the concrete bound state. -/
theorem udp_bind_in_use_malformed_witness :
    Udp.bind udpBoundInner 3 { addr := 7, port := 80 } =
      .error (.Malformed "Port already listening") :=
  udp_bind_in_use_malformed.1 udpBoundInner 3 { addr := 7, port := 80 }
    (by decide)

/-- C9: `push(fd, buf)` on a socket that is both bound and connected
    succeeds, deferring to `send_datagram`: on an ARP fast-path hit the
    datagram is built and transmitted immediately (the deferred queue is
    untouched); on a cache miss `(local, remote, buf)` joins the
    deferred-send queue (nothing transmitted) and push still returns Ok.  A
    socket that exists but is not both bound and connected makes push return
    an error. -/
theorem udp_push_spec :
    (∀ (inner : Udp.UdpPeerInner) (fd : Nat) (buf : List Nat)
        (s : Udp.Socket) (lcl rem : Udp.Endpoint),
        Udp.sockGet inner.sockets fd = some s →
        s.local_ep = some lcl → s.remote_ep = some rem →
        Udp.push inner fd buf =
          .ok (Udp.send_datagram inner buf (some lcl) rem) ∧
        (∀ la, Udp.tryQuery inner.arp rem.addr = some la →
          (Udp.send_datagram inner buf (some lcl) rem).transmitted =
            inner.transmitted ++
              [{ eth_dst_addr := la
                 eth_src_addr := inner.local_link_addr
                 ip_src_addr := inner.local_ipv4_addr
                 ip_dst_addr := rem.addr
                 udp_src_port := some lcl.port
                 udp_dst_port := rem.port
                 payload := buf
                 tx_checksum := inner.tx_checksum }] ∧
          (Udp.send_datagram inner buf (some lcl) rem).outgoing =
            inner.outgoing) ∧
        (Udp.tryQuery inner.arp rem.addr = none →
          (Udp.send_datagram inner buf (some lcl) rem).outgoing =
            inner.outgoing ++ [(some lcl, rem, buf)] ∧
          (Udp.send_datagram inner buf (some lcl) rem).transmitted =
            inner.transmitted)) ∧
    (∀ (inner : Udp.UdpPeerInner) (fd : Nat) (buf : List Nat)
        (s : Udp.Socket),
        Udp.sockGet inner.sockets fd = some s →
        ¬(s.local_ep.isSome ∧ s.remote_ep.isSome) →
        ∃ e, Udp.push inner fd buf = .error e) := by
  constructor
  · intro inner fd buf s lcl rem hs hl hr
    refine ⟨?_, ?_, ?_⟩
    · unfold Udp.push
      rw [hs]
      dsimp only
      rw [if_pos (by simp [hl, hr]), hl, hr]
      rfl
    · intro la hla
      unfold Udp.send_datagram
      rw [hla]
      exact ⟨by simp, rfl⟩
    · intro hla
      unfold Udp.send_datagram
      rw [hla]
      exact ⟨rfl, rfl⟩
  · intro inner fd buf s hs hnot
    unfold Udp.push
    rw [hs]
    dsimp only
    rw [if_neg hnot]
    split
    · exact ⟨_, rfl⟩
    · split
      · exact ⟨_, rfl⟩
      · exact ⟨_, rfl⟩

/-- Witness for C9: a bound-and-connected socket over an empty ARP cache
    (the miss path: the datagram is deferred and push returns Ok). -/
theorem udp_push_spec_witness :
    Udp.push
        { sockets := [(5, { local_ep := some { addr := 7, port := 80 }
                            remote_ep := some { addr := 9, port := 90 } })]
          bound := [({ addr := 7, port := 80 }, Udp.Listener.default)]
          outgoing := []
          arp := emptyArpCache
          local_link_addr := ⟨[0, 0, 0, 0, 0, 1]⟩
          local_ipv4_addr := 7
          tx_checksum := false
          transmitted := [] } 5 [1, 2, 3] =
      .ok (Udp.send_datagram
        { sockets := [(5, { local_ep := some { addr := 7, port := 80 }
                            remote_ep := some { addr := 9, port := 90 } })]
          bound := [({ addr := 7, port := 80 }, Udp.Listener.default)]
          outgoing := []
          arp := emptyArpCache
          local_link_addr := ⟨[0, 0, 0, 0, 0, 1]⟩
          local_ipv4_addr := 7
          tx_checksum := false
          transmitted := [] } [1, 2, 3] (some { addr := 7, port := 80 })
        { addr := 9, port := 90 }) :=
  (udp_push_spec.1
    { sockets := [(5, { local_ep := some { addr := 7, port := 80 }
                        remote_ep := some { addr := 9, port := 90 } })]
      bound := [({ addr := 7, port := 80 }, Udp.Listener.default)]
      outgoing := []
      arp := emptyArpCache
      local_link_addr := ⟨[0, 0, 0, 0, 0, 1]⟩
      local_ipv4_addr := 7
      tx_checksum := false
      transmitted := [] } 5 [1, 2, 3]
    { local_ep := some { addr := 7, port := 80 }
      remote_ep := some { addr := 9, port := 90 } }
    { addr := 7, port := 80 } { addr := 9, port := 90 } rfl rfl rfl).1

/-- C6 counterexample: a 28-byte buffer whose hardware type field is 2 (all
    other bytes well-formed) makes `ArpPdu::parse` fail with the
    `Unsupported` error kind, not `Malformed` as the claim states for fixed-
    field mismatches. -/
theorem arp_parse_mismatch_not_malformed_cex :
    Arp.ArpPdu.parse ([0, 2, 8, 0, 6, 4, 0, 1] ++ List.replicate 20 0) =
      .error (.Unsupported "Unsupported HTYPE") ∧
    ∀ d, Arp.ArpPdu.parse ([0, 2, 8, 0, 6, 4, 0, 1] ++ List.replicate 20 0) ≠
      .error (.Malformed d) := by
  constructor
  · rfl
  · intro d h
    rw [show Arp.ArpPdu.parse ([0, 2, 8, 0, 6, 4, 0, 1] ++
        List.replicate 20 0) = .error (.Unsupported "Unsupported HTYPE")
        from rfl] at h
    simp at h

/-- C6 (amended): `ArpPdu::parse` fails with `Malformed` exactly when the
    buffer is shorter than 28 bytes; a fixed-field mismatch (htype ≠ 1,
    ptype ≠ 0x0800, hlen ≠ 6, plen ≠ 4, or operation ∉ {1, 2}) on a
    long-enough buffer fails with the `Unsupported` error kind instead. -/
theorem arp_parse_error_kinds :
    (∀ buf : List Nat, buf.length < 28 →
        Arp.ArpPdu.parse buf = .error (.Malformed "ARP message too short")) ∧
    (∀ (buf : List Nat) (d : String),
        Arp.ArpPdu.parse buf = .error (.Malformed d) → buf.length < 28) ∧
    (∀ buf : List Nat, 28 ≤ buf.length →
        (Arp.read_u16 buf 0 ≠ 1 ∨ Arp.read_u16 buf 2 ≠ 2048 ∨
          buf.getD 4 0 ≠ 6 ∨ buf.getD 5 0 ≠ 4 ∨
          (Arp.read_u16 buf 6 ≠ 1 ∧ Arp.read_u16 buf 6 ≠ 2)) →
        ∃ d, Arp.ArpPdu.parse buf = .error (.Unsupported d)) := by
  refine ⟨?_, ?_, ?_⟩
  · intro buf h
    unfold Arp.ArpPdu.parse
    rw [if_pos (by simpa [Arp.ARP_MESSAGE_SIZE] using h)]
  · intro buf d h
    unfold Arp.ArpPdu.parse at h
    split at h
    · next hlt => simpa [Arp.ARP_MESSAGE_SIZE] using hlt
    · split at h
      · simp at h
      · split at h
        · simp at h
        · split at h
          · simp at h
          · split at h
            · simp at h
            · split at h
              · simp at h
              · simp at h
  · intro buf hlen hmm
    have hnl : ¬ buf.length < Arp.ARP_MESSAGE_SIZE := by
      simp [Arp.ARP_MESSAGE_SIZE]; omega
    by_cases h0 : Arp.read_u16 buf 0 = 1
    · by_cases h1 : Arp.read_u16 buf 2 = 2048
      · by_cases h2 : buf.getD 4 0 = 6
        · by_cases h3 : buf.getD 5 0 = 4
          · have hop : Arp.read_u16 buf 6 ≠ 1 ∧ Arp.read_u16 buf 6 ≠ 2 := by
              rcases hmm with h | h | h | h | h
              · exact absurd h0 h
              · exact absurd h1 (by simpa [Arp.ARP_PTYPE_IPV4] using h)
              · exact absurd h2 (by simpa [Arp.ARP_HLEN_ETHER2] using h)
              · exact absurd h3 (by simpa [Arp.ARP_PLEN_IPV4] using h)
              · exact h
            refine ⟨"Unsupported OPER", ?_⟩
            unfold Arp.ArpPdu.parse
            rw [if_neg hnl,
                if_neg (by simpa [Arp.ARP_HTYPE_ETHER2] using
                  not_not_intro h0),
                if_neg (by simpa [Arp.ARP_PTYPE_IPV4] using
                  not_not_intro h1),
                if_neg (by simpa [Arp.ARP_HLEN_ETHER2] using
                  not_not_intro h2),
                if_neg (by simpa [Arp.ARP_PLEN_IPV4] using
                  not_not_intro h3)]
            unfold Arp.ArpOperation.fromU16
            rw [if_neg hop.1, if_neg hop.2]
          · refine ⟨"Unsupported PLEN", ?_⟩
            unfold Arp.ArpPdu.parse
            rw [if_neg hnl,
                if_neg (by simpa [Arp.ARP_HTYPE_ETHER2] using
                  not_not_intro h0),
                if_neg (by simpa [Arp.ARP_PTYPE_IPV4] using
                  not_not_intro h1),
                if_neg (by simpa [Arp.ARP_HLEN_ETHER2] using
                  not_not_intro h2),
                if_pos (by simpa [Arp.ARP_PLEN_IPV4] using h3)]
        · refine ⟨"Unsupported HLEN", ?_⟩
          unfold Arp.ArpPdu.parse
          rw [if_neg hnl,
              if_neg (by simpa [Arp.ARP_HTYPE_ETHER2] using
                not_not_intro h0),
              if_neg (by simpa [Arp.ARP_PTYPE_IPV4] using
                not_not_intro h1),
              if_pos (by simpa [Arp.ARP_HLEN_ETHER2] using h2)]
      · refine ⟨"Unsupported PTYPE", ?_⟩
        unfold Arp.ArpPdu.parse
        rw [if_neg hnl,
            if_neg (by simpa [Arp.ARP_HTYPE_ETHER2] using not_not_intro h0),
            if_pos (by simpa [Arp.ARP_PTYPE_IPV4] using h1)]
    · refine ⟨"Unsupported HTYPE", ?_⟩
      unfold Arp.ArpPdu.parse
      rw [if_neg hnl, if_pos (by simpa [Arp.ARP_HTYPE_ETHER2] using h0)]

/-- Witness for C6's amended theorem: a 5-byte buffer is `Malformed`; a
    28-byte buffer with hlen 7 is a field mismatch (`Unsupported`). -/
theorem arp_parse_error_kinds_witness :
    Arp.ArpPdu.parse [0, 1, 8, 0, 6] =
      .error (.Malformed "ARP message too short") ∧
    ∃ d, Arp.ArpPdu.parse ([0, 1, 8, 0, 7, 4, 0, 1] ++
        List.replicate 20 0) = .error (.Unsupported d) :=
  ⟨arp_parse_error_kinds.1 [0, 1, 8, 0, 6] (by decide),
   arp_parse_error_kinds.2.2
     ([0, 1, 8, 0, 7, 4, 0, 1] ++ List.replicate 20 0)
     (by decide) (by decide)⟩

/-- C7: on a well-formed 28-byte buffer (htype 1, ptype 0x0800, hlen 6,
    plen 4, operation 1 or 2), `ArpPdu::parse` succeeds, and
    `ArpPdu::serialize` of the parsed PDU reproduces the buffer byte for
    byte: serialize composed with parse is the identity there. -/
theorem arp_serialize_parse_roundtrip :
    ∀ b0 b1 b2 b3 b4 b5 b6 b7 b8 b9 b10 b11 b12 b13 b14 b15 b16 b17
      b18 b19 b20 b21 b22 b23 b24 b25 b26 b27 : Nat,
      (b0 < 256 ∧ b1 < 256 ∧ b2 < 256 ∧ b3 < 256 ∧ b4 < 256 ∧ b5 < 256 ∧
       b6 < 256 ∧ b7 < 256 ∧ b8 < 256 ∧ b9 < 256 ∧ b10 < 256 ∧ b11 < 256 ∧
       b12 < 256 ∧ b13 < 256 ∧ b14 < 256 ∧ b15 < 256 ∧ b16 < 256 ∧
       b17 < 256 ∧ b18 < 256 ∧ b19 < 256 ∧ b20 < 256 ∧ b21 < 256 ∧
       b22 < 256 ∧ b23 < 256 ∧ b24 < 256 ∧ b25 < 256 ∧ b26 < 256 ∧
       b27 < 256) →
      Arp.read_u16 [b0, b1, b2, b3, b4, b5, b6, b7, b8, b9, b10, b11, b12,
        b13, b14, b15, b16, b17, b18, b19, b20, b21, b22, b23, b24, b25,
        b26, b27] 0 = 1 →
      Arp.read_u16 [b0, b1, b2, b3, b4, b5, b6, b7, b8, b9, b10, b11, b12,
        b13, b14, b15, b16, b17, b18, b19, b20, b21, b22, b23, b24, b25,
        b26, b27] 2 = 2048 →
      b4 = 6 → b5 = 4 →
      (Arp.read_u16 [b0, b1, b2, b3, b4, b5, b6, b7, b8, b9, b10, b11, b12,
        b13, b14, b15, b16, b17, b18, b19, b20, b21, b22, b23, b24, b25,
        b26, b27] 6 = 1 ∨
       Arp.read_u16 [b0, b1, b2, b3, b4, b5, b6, b7, b8, b9, b10, b11, b12,
        b13, b14, b15, b16, b17, b18, b19, b20, b21, b22, b23, b24, b25,
        b26, b27] 6 = 2) →
      ∃ pdu : Arp.ArpPdu,
        Arp.ArpPdu.parse [b0, b1, b2, b3, b4, b5, b6, b7, b8, b9, b10, b11,
          b12, b13, b14, b15, b16, b17, b18, b19, b20, b21, b22, b23, b24,
          b25, b26, b27] = .ok pdu ∧
        pdu.serialize = [b0, b1, b2, b3, b4, b5, b6, b7, b8, b9, b10, b11,
          b12, b13, b14, b15, b16, b17, b18, b19, b20, b21, b22, b23, b24,
          b25, b26, b27] := by
  intro b0 b1 b2 b3 b4 b5 b6 b7 b8 b9 b10 b11 b12 b13 b14 b15 b16 b17
    b18 b19 b20 b21 b22 b23 b24 b25 b26 b27 hb h1 h2 h4 h5 hop
  obtain ⟨c0, c1, c2, c3, c4, c5, c6, c7, c8, c9, c10, c11, c12, c13, c14,
    c15, c16, c17, c18, c19, c20, c21, c22, c23, c24, c25, c26, c27⟩ := hb
  rw [show Arp.read_u16 [b0, b1, b2, b3, b4, b5, b6, b7, b8, b9, b10, b11,
      b12, b13, b14, b15, b16, b17, b18, b19, b20, b21, b22, b23, b24, b25,
      b26, b27] 0 = 256 * b0 + b1 from rfl] at h1
  rw [show Arp.read_u16 [b0, b1, b2, b3, b4, b5, b6, b7, b8, b9, b10, b11,
      b12, b13, b14, b15, b16, b17, b18, b19, b20, b21, b22, b23, b24, b25,
      b26, b27] 2 = 256 * b2 + b3 from rfl] at h2
  rw [show Arp.read_u16 [b0, b1, b2, b3, b4, b5, b6, b7, b8, b9, b10, b11,
      b12, b13, b14, b15, b16, b17, b18, b19, b20, b21, b22, b23, b24, b25,
      b26, b27] 6 = 256 * b6 + b7 from rfl] at hop
  have e0 : b0 = 0 := by omega
  have e1 : b1 = 1 := by omega
  have e2 : b2 = 8 := by omega
  have e3 : b3 = 0 := by omega
  have e6 : b6 = 0 := by omega
  subst e0 e1 e2 e3 e6 h4 h5
  have h32a : Arp.u32Bytes (16777216 * b14 + 65536 * b15 + 256 * b16 + b17) =
      [b14, b15, b16, b17] := Arp.u32Bytes_comp _ _ _ _ c14 c15 c16 c17
  have h32b : Arp.u32Bytes (16777216 * b24 + 65536 * b25 + 256 * b26 + b27) =
      [b24, b25, b26, b27] := Arp.u32Bytes_comp _ _ _ _ c24 c25 c26 c27
  rcases hop with h | h
  · have e7 : b7 = 1 := by omega
    subst e7
    refine ⟨_, rfl, ?_⟩
    show Arp.u16Bytes 1 ++ Arp.u16Bytes 2048 ++ [6, 4] ++
        Arp.u16Bytes Arp.ArpOperation.request.toU16 ++
        [b8, b9, b10, b11, b12, b13] ++
        Arp.u32Bytes (16777216 * b14 + 65536 * b15 + 256 * b16 + b17) ++
        [b18, b19, b20, b21, b22, b23] ++
        Arp.u32Bytes (16777216 * b24 + 65536 * b25 + 256 * b26 + b27) = _
    rw [h32a, h32b]
    rfl
  · have e7 : b7 = 2 := by omega
    subst e7
    refine ⟨_, rfl, ?_⟩
    show Arp.u16Bytes 1 ++ Arp.u16Bytes 2048 ++ [6, 4] ++
        Arp.u16Bytes Arp.ArpOperation.reply.toU16 ++
        [b8, b9, b10, b11, b12, b13] ++
        Arp.u32Bytes (16777216 * b14 + 65536 * b15 + 256 * b16 + b17) ++
        [b18, b19, b20, b21, b22, b23] ++
        Arp.u32Bytes (16777216 * b24 + 65536 * b25 + 256 * b26 + b27) = _
    rw [h32a, h32b]
    rfl

/-- Witness for C7 at a concrete well-formed request PDU buffer. -/
theorem arp_serialize_parse_roundtrip_witness :
    ∃ pdu : Arp.ArpPdu,
      Arp.ArpPdu.parse [0, 1, 8, 0, 6, 4, 0, 1, 11, 12, 13, 14, 15, 16,
        10, 0, 0, 1, 21, 22, 23, 24, 25, 26, 10, 0, 0, 2] = .ok pdu ∧
      pdu.serialize = [0, 1, 8, 0, 6, 4, 0, 1, 11, 12, 13, 14, 15, 16,
        10, 0, 0, 1, 21, 22, 23, 24, 25, 26, 10, 0, 0, 2] :=
  arp_serialize_parse_roundtrip 0 1 8 0 6 4 0 1 11 12 13 14 15 16
    10 0 0 1 21 22 23 24 25 26 10 0 0 2 (by decide) (by decide) (by decide)
    rfl rfl (Or.inl (by decide))

/-- C2 counterexample: from a fresh Cubic instance with MSS 1000 (initial
    cwnd 4000, initial sequence number 100), the trace

    1. RTO (sent = 200): `w_max ← 4000`, `cwnd ← MSS = 1000`,
       `ssthresh ← max(⌊0.7·4000⌋, 2000) = 2800`, `recover ← 200`;
    2. ACK of one new byte: slow start, `cwnd ← 1001`;
    3.–5. three duplicate ACKs at the same sequence number: the third
       triggers fast-recovery entry through the retransmitted-packet-dropped
       heuristic (`cwnd = 1001 > MSS` and diff `0 ≤ 4·MSS`), setting
       `cwnd ← (1001 as f32 * 0.7f32) as u32 = 700`

    leaves `cwnd = 700 < 1000 = MSS`, refuting "cwnd ≥ MSS always".
    (`0.7f32 = 11744051/2^24`; `1001·0.7f32` rounds to `11480269/2^14 =
    700.70001…`, which truncates to 700.) -/
theorem cubic_cwnd_below_mss_cex :
    (Cubic.run (Cubic.CubicState.new 1000 100 true)
        [.rto 200,
         .ackReceived 101 100 200 (.concave 0),
         .ackReceived 101 101 200 (.concave 0),
         .ackReceived 101 101 200 (.concave 0),
         .ackReceived 101 101 200 (.concave 0)]).cwnd = 700 ∧
    (Cubic.run (Cubic.CubicState.new 1000 100 true)
        [.rto 200,
         .ackReceived 101 100 200 (.concave 0),
         .ackReceived 101 101 200 (.concave 0),
         .ackReceived 101 101 200 (.concave 0),
         .ackReceived 101 101 200 (.concave 0)]).cwnd <
      (Cubic.CubicState.new 1000 100 true).mss :=
  ⟨by decide, by decide⟩

/-- C2 (amended): `cwnd ≥ MSS` is not an invariant of all traces — entering
    fast recovery on a third duplicate ACK sets `cwnd ← ⌊0.7·cwnd⌋`, which
    drops below MSS whenever `cwnd < ⌈MSS/0.7⌉` (see the counterexample),
    and fast-recovery partial ACKs and congestion-avoidance updates can
    deflate it further.  What does hold: starting from a fresh instance with
    `0 < MSS` and `4·MSS < 2^32`, every trace whose ACK events neither enter
    fast recovery nor reach congestion avoidance (each new-data ACK arrives
    while `cwnd < ssthresh`) and never overflow `cwnd + MSS` in `u32` keeps
    `cwnd ≥ MSS` at every point (RTOs, sends, idle-window clamps,
    limited-transmit updates and fast retransmits included). -/
theorem cubic_cwnd_ge_mss_nonshrinking :
    ∀ (mss seq_no : Nat) (fc : Bool) (evs : List Cubic.CubicEvent),
      0 < mss → 4 * mss < 4294967296 →
      Cubic.nonShrinkingTrace (Cubic.CubicState.new mss seq_no fc) evs =
        true →
      mss ≤ (Cubic.run (Cubic.CubicState.new mss seq_no fc) evs).cwnd := by
  intro mss seq_no fc evs hpos hbound ht
  have hbase := Cubic.window_inv_new mss seq_no fc hpos
    (by simpa [U32MOD] using hbound)
  have h := Cubic.window_inv_run evs _ hbase ht
  have hm := Cubic.run_mss evs (Cubic.CubicState.new mss seq_no fc)
  have hc := h.2.2.2.1
  rw [hm] at hc
  exact hc

/-- Witness for C2's amended theorem: MSS 1000, a send, an RTO, and a
    slow-start ACK of one byte; cwnd stays at or above MSS. -/
theorem cubic_cwnd_ge_mss_nonshrinking_witness :
    1000 ≤ (Cubic.run (Cubic.CubicState.new 1000 0 true)
        [.send 50, .rto 7, .ackReceived 3 2 9 (.concave 0)]).cwnd :=
  cubic_cwnd_ge_mss_nonshrinking 1000 0 true
    [.send 50, .rto 7, .ackReceived 3 2 9 (.concave 0)]
    (by decide) (by decide) (by decide)

/-- C8: starting from a freshly created Cubic instance (with `0 < MSS` and
    `4·MSS` representable in `u32`), once a congestion event has occurred —
    entry into fast recovery on the third duplicate ACK, or an RTO (tracked
    by the ghost flag `congestion_event_seen`) — `ssthresh ≥ 2·MSS` holds at
    every later point of the trace: `ssthresh` starts at `u32::MAX` and
    every write is a `max` with `2·MSS`. -/
theorem cubic_ssthresh_two_mss_after_congestion :
    ∀ (mss seq_no : Nat) (fc : Bool) (evs1 evs2 : List Cubic.CubicEvent),
      0 < mss → 4 * mss < 4294967296 →
      (Cubic.run (Cubic.CubicState.new mss seq_no fc)
          evs1).congestion_event_seen = true →
      2 * mss ≤
        (Cubic.run (Cubic.run (Cubic.CubicState.new mss seq_no fc) evs1)
            evs2).ssthresh := by
  intro mss seq_no fc evs1 evs2 _hpos hbound _hseen
  have hstep := Cubic.ssthresh_inv_step mss (by simpa [U32MOD] using hbound)
  have hbase : Cubic.SsthreshInv mss (Cubic.CubicState.new mss seq_no fc) := by
    refine ⟨rfl, ?_⟩
    show 2 * mss ≤ 4294967295
    omega
  have h1 := Cubic.run_inv (Cubic.SsthreshInv mss) hstep evs1 _ hbase
  have h2 := Cubic.run_inv (Cubic.SsthreshInv mss) hstep evs2 _ h1
  exact h2.2

/-- Witness for C8: MSS 1000, a single RTO as the congestion event;
    thereafter `ssthresh = 2800 ≥ 2000`. -/
theorem cubic_ssthresh_two_mss_after_congestion_witness :
    2 * 1000 ≤
      (Cubic.run (Cubic.run (Cubic.CubicState.new 1000 0 true) [.rto 5])
          []).ssthresh :=
  cubic_ssthresh_two_mss_after_congestion 1000 0 true [.rto 5] []
    (by decide) (by decide) (by decide)
